import Mathlib

/- Shallow embedding of the hoh-realtime repository.

   The repository carries two WebSocket server implementations:
   namespace ServerJs embeds src/server.js, and namespace HohWs embeds
   src/unnamed/part_000 (hoh-ws-server.js).  Connections are modelled by
   numeric handles; the set of handles whose socket readyState is OPEN is
   passed as an ambient list; the external jsonwebtoken and fetch
   collaborators are modelled abstractly, with their outcomes passed in. -/

/-- WebSocket connection handles, identified by a numeric id. -/
abbrev Ws := Nat

/-- JavaScript truthiness of an optional string value: an absent field and
the empty string are falsy, every other string is truthy. -/
def jsTruthy : Option String → Bool
  | none => false
  | some s => !(s == "")

/-- JavaScript `a || d` on an optional string with a string default. -/
def jsOrD (a : Option String) (d : String) : String :=
  match a with
  | some s => if s = "" then d else s
  | none => d

/-- JavaScript `a || b` on two optional strings (empty string is falsy). -/
def jsOr (a b : Option String) : Option String :=
  if jsTruthy a then a else b

/-- The literal of an empty JSON object, used by the `x || \x7b\x7d`
defaults in the source. -/
def emptyObjLit : String := "\x7b\x7d"

/-- JavaScript `data || \x7b\x7d` on an optional JSON-value string. -/
def jsOrEmptyObj (a : Option String) : String :=
  match a with
  | some s => if s = "" then emptyObjLit else s
  | none => emptyObjLit

/-- Leading and trailing whitespace removal on a character list. -/
def trimChars (l : List Char) : List Char :=
  ((l.dropWhile Char.isWhitespace).reverse.dropWhile Char.isWhitespace).reverse

/-- Model of JavaScript `s.trim()`, by structural recursion on the
character data so that it computes. -/
def jsTrim (s : String) : String := ⟨trimChars s.data⟩

/-- Split of a character list at every occurrence of `c`. -/
def splitOnChar (c : Char) : List Char → List (List Char)
  | [] => [[]]
  | x :: xs =>
    match splitOnChar c xs, decide (x = c) with
    | r, true => [] :: r
    | [], false => [[x]]
    | y :: ys, false => (x :: y) :: ys

/-- Model of JavaScript `s.split(',')`: the list of comma-separated
pieces, with empty pieces kept. -/
def jsSplitComma (s : String) : List String :=
  (splitOnChar ',' s.data).map fun l => ⟨l⟩

/-- Model of an external signed token (the jsonwebtoken collaborator):
its claims, the secret it was signed with, and whether it is expired. -/
structure Token where
  sub : Option String
  user_id : Option String
  name : Option String
  email : Option String
  signedWith : String
  expired : Bool
deriving DecidableEq, Repr

/-- Model of the external library call `jwt.verify(token, secret)`:
verification succeeds, returning the payload, exactly when the token was
signed with `secret` and has not expired. -/
def jwtVerify (t : Token) (secret : String) : Option Token :=
  if t.signedWith = secret ∧ t.expired = false then some t else none

/-- Provenance field of a broadcast `event` frame: either
`from: \x7bsystem:true\x7d` or `from: \x7buserId,name\x7d`. -/
inductive EvSource where
  | system
  | user (userId : Option String) (name : String)
deriving DecidableEq, Repr

namespace HohWs

/-- Per-connection metadata kept in the `clients` map of hoh-ws-server.js:
`\x7b userId, name, rooms \x7d`, with `rooms` a JS Set in insertion order. -/
structure Meta where
  userId : Option String
  name : String
  rooms : List String
deriving DecidableEq, Repr

/-- The in-memory presence map `clients : Map(ws -> meta)` as an
association list with unique keys (Map insertion order). -/
abbrev Clients := List (Ws × Meta)

/-- `clients.get(ws)` on the association-list model. -/
def getClient : Clients → Ws → Option Meta
  | [], _ => none
  | (w, m) :: rest, ws => if w = ws then some m else getClient rest ws

/-- `clients.set(ws, meta)`: replaces the binding when the key is present,
appends it otherwise. -/
def setClient : Clients → Ws → Meta → Clients
  | [], ws, meta => [(ws, meta)]
  | (w, m) :: rest, ws, meta =>
      if w = ws then (w, meta) :: rest else (w, m) :: setClient rest ws meta

/-- In-place mutation of the meta object stored for `ws` (JS meta objects
are shared references, so mutating `meta` updates the map's entry). -/
def updateMeta : Clients → Ws → (Meta → Meta) → Clients
  | [], _, _ => []
  | (w, m) :: rest, ws, f =>
      if w = ws then (w, f m) :: rest else (w, m) :: updateMeta rest ws f

/-- `meta.rooms.add(room)`: a JS Set add, appending when absent. -/
def addRoom (rs : List String) (r : String) : List String :=
  if r ∈ rs then rs else rs ++ [r]

/-- `meta.rooms.delete(room)`: a JS Set delete. -/
def delRoom (rs : List String) (r : String) : List String :=
  rs.erase r

/-- Outbound frames built by hoh-ws-server.js. -/
inductive Out where
  | connected (userId : Option String) (name : String) (rooms : List String)
  | joined (room : String)
  | left (room : String)
  | msgNew (saved : String)
  | chat (room : String) (text : String) (userId : Option String) (name : String) (ts : Nat)
  | ev (room : String) (event : String) (data : String) (src : EvSource)
deriving DecidableEq, Repr

/-- The helper `broadcastToRoom(room, message, exceptWs)` of
hoh-ws-server.js: walk the clients map and send to every entry, skipping
sockets that are not OPEN, members not in the room, and `exceptWs`.
The result lists the (recipient, frame) sends attempted. -/
def broadcastToRoom (clients : Clients) (openSet : List Ws) (room : String)
    (message : Out) (exceptWs : Option Ws) : List (Ws × Out) :=
  clients.filterMap fun wm =>
    if wm.1 ∉ openSet then none
    else if room ∉ wm.2.rooms then none
    else if exceptWs = some wm.1 then none
    else some (wm.1, message)

/-- Nested `message` object of a `message:new` frame. -/
structure MsgBody where
  content : Option String
  message_type : Option String
  metadata : Option String
deriving DecidableEq, Repr

/-- Nested `payload` object of an `event` frame. -/
structure EvPayload where
  event : Option String
  data : Option String
deriving DecidableEq, Repr

/-- Structured form of a successfully parsed inbound JSON frame; every
field the handler reads is optional, mirroring JS property access. -/
structure HohMsg where
  type : Option String
  room : Option String
  text : Option String
  body_chat_id : Option String
  message : Option MsgBody
  payload : Option EvPayload
deriving DecidableEq, Repr

/-- Effect of one run of the `ws.on('message')` callback: the updated
clients map, the sends attempted, console.error output, whether the
handler closed the socket, and whether it raised an exception. -/
structure Step where
  clients : Clients
  sends : List (Ws × Out)
  logs : List String
  closed : Bool
  threw : Bool
deriving DecidableEq, Repr

/-- Configured verification secret:
`process.env.HOH_JWT_SECRET || 'change-me-in-production'`. -/
def JWT_SECRET (env : Option String) : String :=
  jsOrD env "change-me-in-production"

/-- Initial room set from the optional comma-separated `rooms` query
parameter: split on commas, trim each entry, drop empties, Set add. -/
def parseRooms (roomsQ : Option String) : List String :=
  if jsTruthy roomsQ then
    (jsSplitComma (roomsQ.getD "")).foldl
      (fun acc r => let room := jsTrim r; if room = "" then acc else addRoom acc room) []
  else []

/-- Result of the connection handler: either the socket is closed with a
code and a reason, or the session is registered and frames are sent. -/
inductive ConnResult where
  | closed (code : Nat) (reason : String)
  | accepted (clients : Clients) (sends : List (Ws × Out))
deriving DecidableEq, Repr

/-- The `wss.on('connection')` handler of hoh-ws-server.js: close 4001
without a token, close 4002 when jwt.verify fails against the configured
secret, otherwise register the session in `clients`, auto-join the rooms
from the query, and send the single `connected` welcome frame. -/
def onConnection (env : Option String) (tok : Option Token) (roomsQ : Option String)
    (clients : Clients) (ws : Ws) : ConnResult :=
  match tok with
  | none => .closed 4001 "Missing token"
  | some t =>
    match jwtVerify t (JWT_SECRET env) with
    | none => .closed 4002 "Invalid token"
    | some payload =>
      let userId := jsOr payload.sub payload.user_id
      let uname := jsOrD payload.name "Guest"
      let meta : Meta := ⟨userId, uname, parseRooms roomsQ⟩
      .accepted (setClient clients ws meta) [(ws, .connected userId uname meta.rooms)]

/-- The `ws.on('message')` callback of hoh-ws-server.js.  `parsed` is the
outcome of `JSON.parse` (`none` when it throws); `writeResult` is the
outcome of the external fetch to the persistence API on the
`message:new` path (`.ok saved` carries the saved message the API
returned).  `userId`/`uname` are the closure constants bound at connect
time for this socket. -/
def onMessage (clients : Clients) (openSet : List Ws) (ws : Ws)
    (userId : Option String) (uname : String) (now : Nat)
    (parsed : Option HohMsg) (writeResult : Except String String) : Step :=
  match parsed with
  | none => ⟨clients, [], [], false, false⟩
  | some msg =>
    if msg.type = some "message:new" then
      let clients1 := updateMeta clients ws fun m =>
        { m with rooms := addRoom m.rooms "body_chat" }
      match msg.message with
      | none =>
          ⟨clients1, [], [], false, true⟩
      | some _ =>
          match writeResult with
          | .error e =>
              ⟨clients1, [], ["Failed to save Body Chat message: " ++ e], false, false⟩
          | .ok saved =>
              ⟨clients1,
                broadcastToRoom clients1 openSet "body_chat" (.msgNew saved) (some ws),
                [], false, false⟩
    else if msg.type = some "message" ∧ jsTruthy msg.room then
      if jsTruthy msg.text = false ∨ jsTrim (msg.text.getD "") = "" then
        ⟨clients, [], [], false, false⟩
      else
        let room := msg.room.getD ""
        ⟨clients,
          broadcastToRoom clients openSet room
            (.chat room (msg.text.getD "") userId uname now) (some ws),
          [], false, false⟩
    else if msg.type = some "join" ∧ jsTruthy msg.room then
      let room := msg.room.getD ""
      ⟨updateMeta clients ws (fun m => { m with rooms := addRoom m.rooms room }),
        [(ws, .joined room)], [], false, false⟩
    else if msg.type = some "leave" ∧ jsTruthy msg.room then
      let room := msg.room.getD ""
      ⟨updateMeta clients ws (fun m => { m with rooms := delRoom m.rooms room }),
        [(ws, .left room)], [], false, false⟩
    else if msg.type = some "event" ∧ jsTruthy msg.room ∧ msg.payload.isSome ∧
        jsTruthy (msg.payload.bind EvPayload.event) then
      let room := msg.room.getD ""
      let p := msg.payload.getD ⟨none, none⟩
      ⟨clients,
        broadcastToRoom clients openSet room
          (.ev room (p.event.getD "") (jsOrEmptyObj p.data) (.user userId uname)) (some ws),
        [], false, false⟩
    else
      ⟨clients, [], [], false, false⟩

/-- hoh-ws-server.js registers no close handler on the socket and never
deletes from the `clients` map, so a closing connection runs no
application code: the presence map is unchanged and nothing is sent. -/
def onClose (clients : Clients) (_ws : Ws) : Clients × List (Ws × Out) :=
  (clients, [])

/-- Parsed fields of a POST /emit body: present exactly when `JSON.parse`
plus the destructuring succeed, with each destructured field optional. -/
structure EmitBody where
  room : Option String
  event : Option String
  data : Option String
deriving DecidableEq, Repr

/-- Response to a POST /emit request: HTTP status, response text, and the
sends attempted by the triggered broadcast. -/
structure EmitRes where
  status : Nat
  body : String
  sends : List (Ws × Out)
deriving DecidableEq, Repr

/-- The POST /emit branch of the HTTP request handler: 400 'Invalid JSON'
when the body does not parse, 400 'Missing room or event' when `room` or
`event` is falsy, otherwise a single broadcastToRoom call with no
excluded socket and a 200 'OK' response. -/
def handleEmit (clients : Clients) (openSet : List Ws)
    (parsedBody : Option EmitBody) : EmitRes :=
  match parsedBody with
  | none => ⟨400, "Invalid JSON", []⟩
  | some b =>
    if jsTruthy b.room = false ∨ jsTruthy b.event = false then
      ⟨400, "Missing room or event", []⟩
    else
      let room := b.room.getD ""
      ⟨200, "OK",
        broadcastToRoom clients openSet room
          (.ev room (b.event.getD "") (jsOrEmptyObj b.data) .system) none⟩

end HohWs

namespace ServerJs

/-- The `ws._user` object of server.js, built from the verified payload. -/
structure SUser where
  id : Option String
  name : Option String
  email : Option String
deriving DecidableEq, Repr

/-- The process-wide `rooms : Map(roomName -> Set of clients)` of
server.js, as an association list with unique keys; each member set is a
list in JS Set insertion order. -/
abbrev Rooms := List (String × List Ws)

/-- State touched by server.js room bookkeeping: the rooms map plus the
`ws._room` property written by joinRoom. -/
structure SrvState where
  rooms : Rooms
  wsRoom : List (Ws × String)
deriving DecidableEq, Repr

/-- `rooms.get(room)` on the association-list model. -/
def getRoom : Rooms → String → Option (List Ws)
  | [], _ => none
  | (q, s) :: rest, room => if q = room then some s else getRoom rest room

/-- Member-set update used by joinRoom: create the set when the room is
absent, then Set-add the socket. -/
def addMember : Rooms → String → Ws → Rooms
  | [], room, ws => [(room, [ws])]
  | (q, s) :: rest, room, ws =>
      if q = room then (q, if ws ∈ s then s else s ++ [ws]) :: rest
      else (q, s) :: addMember rest room ws

/-- Member-set update used by leaveRoom: when the room is present, delete
the socket from its set and drop the room entry if the set became empty. -/
def removeMember : Rooms → String → Ws → Rooms
  | [], _, _ => []
  | (q, s) :: rest, room, ws =>
      if q = room then
        let s' := s.erase ws
        if s' = [] then rest else (q, s') :: rest
      else (q, s) :: removeMember rest room ws

/-- Assignment `ws._room = room`. -/
def setWsRoom : List (Ws × String) → Ws → String → List (Ws × String)
  | [], ws, room => [(ws, room)]
  | (w, r) :: rest, ws, room =>
      if w = ws then (w, room) :: rest else (w, r) :: setWsRoom rest ws room

/-- Read of `ws._room`. -/
def getWsRoom : List (Ws × String) → Ws → Option String
  | [], _ => none
  | (w, r) :: rest, ws => if w = ws then some r else getWsRoom rest ws

/-- `joinRoom(ws, room)` of server.js: ensure the room's set exists, add
the socket to it, and record `ws._room = room`. -/
def joinRoom (st : SrvState) (ws : Ws) (room : String) : SrvState :=
  { rooms := addMember st.rooms room ws, wsRoom := setWsRoom st.wsRoom ws room }

/-- `leaveRoom(ws)` of server.js: no-op when `ws._room` is unset or names
an absent room; otherwise delete the socket from the set and prune the
room entry when the set becomes empty.  `ws._room` itself is not cleared. -/
def leaveRoom (st : SrvState) (ws : Ws) : SrvState :=
  match getWsRoom st.wsRoom ws with
  | none => st
  | some room =>
    match getRoom st.rooms room with
    | none => st
    | some _ => { st with rooms := removeMember st.rooms room ws }

/-- Outbound frames built by server.js: it constructs only presence,
typing, and message frames (there is no connected frame anywhere). -/
inductive SrvOut where
  | presence (event : String) (user : SUser) (room : String) (ts : Nat)
  | typing (user : SUser) (room : String) (ts : Nat)
  | chat (user : SUser) (room : String) (text : String) (ts : Nat)
deriving DecidableEq, Repr

/-- `broadcastToRoom(room, data)` of server.js: look the room up and send
to every member whose readyState is OPEN.  There is no exclusion
parameter; the result lists the (recipient, frame) sends attempted. -/
def broadcastToRoom (rooms : Rooms) (openSet : List Ws) (room : String)
    (data : SrvOut) : List (Ws × SrvOut) :=
  match getRoom rooms room with
  | none => []
  | some set => set.filterMap fun c =>
      if c ∈ openSet then some (c, data) else none

/-- Inbound frame fields server.js reads after `JSON.parse`. -/
structure SrvMsg where
  type : Option String
  text : Option String
deriving DecidableEq, Repr

/-- The `ws.on('message')` callback of server.js.  When `JSON.parse`
throws, the raw frame text is coerced to a chat message
(`data = \x7btype:'message', text:String(message)\x7d`); a typing frame is
broadcast as typing, and every other frame is broadcast as a message.
`user` and `room` are the closure constants of this connection.  The room
state is never changed and the socket is never closed here. -/
def onMessage (rooms : Rooms) (openSet : List Ws) (user : SUser) (room : String)
    (now : Nat) (parsed : Option SrvMsg) (raw : String) : List (Ws × SrvOut) :=
  let data := match parsed with
    | some d => d
    | none => ⟨some "message", some raw⟩
  if data.type = some "typing" then
    broadcastToRoom rooms openSet room (.typing user room now)
  else
    broadcastToRoom rooms openSet room (.chat user room (jsOrD data.text "") now)

/-- The `ws.on('close')` callback of server.js: leaveRoom, then broadcast
a presence leave frame to the connection's room. -/
def onClose (st : SrvState) (openSet : List Ws) (ws : Ws) (user : SUser)
    (room : String) (now : Nat) : SrvState × List (Ws × SrvOut) :=
  let st' := leaveRoom st ws
  (st', broadcastToRoom st'.rooms openSet room (.presence "leave" user room now))

/-- Result of the server.js connection handler. -/
inductive SrvConn where
  | closed (code : Nat) (reason : String)
  | accepted (st : SrvState) (room : String) (user : SUser) (sends : List (Ws × SrvOut))
deriving DecidableEq, Repr

/-- The `wss.on('connection')` handler of server.js: default the `room`
query parameter to 'team_chat'; close 4001 when the token or the
configured secret is missing; close 4002 when jwt.verify fails; otherwise
build `ws._user`, joinRoom, and broadcast a presence join frame to the
room (which includes the joining socket itself).  No connected frame is
ever sent. -/
def onConnection (env : Option String) (tok : Option Token) (roomQ : Option String)
    (st : SrvState) (openSet : List Ws) (ws : Ws) (now : Nat) : SrvConn :=
  let room := jsOrD roomQ "team_chat"
  match tok, env with
  | none, _ => .closed 4001 "Missing token or server secret"
  | some _, none => .closed 4001 "Missing token or server secret"
  | some t, some secret =>
    if secret = "" then .closed 4001 "Missing token or server secret"
    else
      match jwtVerify t secret with
      | none => .closed 4002 "Invalid token"
      | some payload =>
        let user : SUser := ⟨payload.sub, payload.name, payload.email⟩
        let st' := joinRoom st ws room
        .accepted st' room user
          (broadcastToRoom st'.rooms openSet room (.presence "join" user room now))

/-- The room-pruning invariant of the server.js rooms map: every room
entry present in the mapping has a non-empty member set. -/
def roomsInv (rooms : Rooms) : Prop :=
  ∀ p ∈ rooms, p.2 ≠ ([] : List Ws)

instance (rooms : Rooms) : Decidable (roomsInv rooms) := by
  unfold roomsInv; infer_instance

/-- Well-formedness of the rooms map as a JS Map of Sets: room names are
unique keys and each member set has no duplicates. -/
def roomsWF (rooms : Rooms) : Prop :=
  (rooms.map Prod.fst).Nodup ∧ ∀ p ∈ rooms, (p.2 : List Ws).Nodup

instance (rooms : Rooms) : Decidable (roomsWF rooms) := by
  unfold roomsWF; infer_instance

/-- Member snapshot of a room: its set when present, empty otherwise. -/
def membersOf (rooms : Rooms) (room : String) : List Ws :=
  (getRoom rooms room).getD []

end ServerJs

namespace HohWs

/-- Characterisation of the sends attempted by hoh-ws-server's
broadcastToRoom: exactly the open-socket members of the room other than
the excluded socket, each receiving the broadcast frame. -/
theorem mem_broadcastToRoom (clients : Clients) (openSet : List Ws) (room : String)
    (message : Out) (exceptWs : Option Ws) (w : Ws) (m : Out) :
    (w, m) ∈ broadcastToRoom clients openSet room message exceptWs ↔
      ((∃ meta, (w, meta) ∈ clients ∧ room ∈ meta.rooms) ∧ w ∈ openSet ∧
        exceptWs ≠ some w ∧ m = message) := by
  unfold broadcastToRoom
  rw [List.mem_filterMap]
  constructor
  · rintro ⟨⟨a, meta⟩, hmem, hf⟩
    dsimp only at hf
    split_ifs at hf with h1 h2 h3
    rw [Option.some.injEq, Prod.mk.injEq] at hf
    obtain ⟨rfl, rfl⟩ := hf
    exact ⟨⟨meta, hmem, h2⟩, h1, h3, rfl⟩
  · rintro ⟨⟨meta, hmem, hroom⟩, hopen, hexc, rfl⟩
    refine ⟨(w, meta), hmem, ?_⟩
    simp [hopen, hroom, hexc]

/-- Shape of the sends produced by one run of the message handler: every
send either goes to a socket other than the sender (a broadcast with the
sender excluded) or is one of the unicast joined/left acknowledgements. -/
theorem onMessage_sends_shape (clients : Clients) (openSet : List Ws) (ws : Ws)
    (userId : Option String) (uname : String) (now : Nat) (msg : HohMsg)
    (wr : Except String String) (p : Ws × Out) :
    p ∈ (onMessage clients openSet ws userId uname now (some msg) wr).sends →
      p.1 ≠ ws ∨ (msg.type = some "join" ∨ msg.type = some "leave") := by
  obtain ⟨pw, pm⟩ := p
  intro hp
  dsimp only [onMessage] at hp
  have bcast : ∀ (c : Clients) (room : String) (m : Out),
      (pw, pm) ∈ broadcastToRoom c openSet room m (some ws) →
        (pw ≠ ws ∨ (msg.type = some "join" ∨ msg.type = some "leave")) := by
    intro c room m h
    left
    intro heq
    exact ((mem_broadcastToRoom c openSet room m (some ws) pw pm).mp h).2.2.1
      (by rw [heq])
  split_ifs at hp with h1 h2 h3 h4 h5 h6
  · rcases hm : msg.message with _ | body <;> rw [hm] at hp
    · simp at hp
    · rcases wr with e | saved
      · simp at hp
      · exact bcast _ _ _ hp
  · simp at hp
  · exact bcast _ _ _ hp
  · right; left; exact h4.1
  · right; right; exact h5.1
  · exact bcast _ _ _ hp
  · simp at hp

end HohWs

/-- C1: in hoh-ws-server, every call to broadcastToRoom attempts sends to
exactly the open-socket members of the room minus the excluded socket,
and the message:new / message / event handlers pass the sender as the
excluded socket, so there a sender never receives its own broadcast and
closed members are skipped.  (As stated over the whole repository the
claim fails: server.js's broadcastToRoom has no exclusion parameter, see
the counterexample.) -/
theorem C1_broadcast_targets :
    (∀ (clients : HohWs.Clients) (openSet : List Ws) (room : String)
        (message : HohWs.Out) (exceptWs : Option Ws) (w : Ws) (m : HohWs.Out),
      (w, m) ∈ HohWs.broadcastToRoom clients openSet room message exceptWs ↔
        ((∃ meta, (w, meta) ∈ clients ∧ room ∈ meta.rooms) ∧ w ∈ openSet ∧
          exceptWs ≠ some w ∧ m = message)) ∧
    (∀ (clients : HohWs.Clients) (openSet : List Ws) (ws : Ws)
        (userId : Option String) (uname : String) (now : Nat)
        (msg : HohWs.HohMsg) (wr : Except String String) (p : Ws × HohWs.Out),
      (msg.type = some "message:new" ∨ msg.type = some "message" ∨
        msg.type = some "event") →
      p ∈ (HohWs.onMessage clients openSet ws userId uname now (some msg) wr).sends →
      p.1 ≠ ws) := by
  constructor
  · exact HohWs.mem_broadcastToRoom
  · intro clients openSet ws userId uname now msg wr p htype hp
    rcases HohWs.onMessage_sends_shape clients openSet ws userId uname now msg wr p hp
      with h | hjl
    · exact h
    · rcases htype with ht | ht | ht <;> rcases hjl with hj | hj <;>
        exact absurd (ht.symm.trans hj) (by decide)

/-- Witness for C1: concrete run of the hoh-ws-server message handler on a
chat frame from socket 1 in room lobby; socket 2 is among the attempted
sends and, by the theorem, is not the sender. -/
theorem C1_broadcast_targets_witness :
    (((2 : Ws), HohWs.Out.chat "lobby" "hi" (some "u1") "Alice" 7) ∈
      (HohWs.onMessage
        [(1, ⟨some "u1", "Alice", ["lobby"]⟩), (2, ⟨some "u2", "Bob", ["lobby"]⟩)]
        [1, 2] 1 (some "u1") "Alice" 7
        (some ⟨some "message", some "lobby", some "hi", none, none, none⟩)
        (.ok "s")).sends) ∧
    ((2 : Ws), HohWs.Out.chat "lobby" "hi" (some "u1") "Alice" 7).1 ≠ 1 :=
  ⟨by decide,
    C1_broadcast_targets.2
      [(1, ⟨some "u1", "Alice", ["lobby"]⟩), (2, ⟨some "u2", "Bob", ["lobby"]⟩)]
      [1, 2] 1 (some "u1") "Alice" 7
      ⟨some "message", some "lobby", some "hi", none, none, none⟩
      (.ok "s") ((2 : Ws), HohWs.Out.chat "lobby" "hi" (some "u1") "Alice" 7)
      (by decide) (by decide)⟩

/-- Counterexample to C1 as stated: in server.js, broadcastToRoom has no
exclusion parameter, so when socket 1 (an open member of room lobby)
sends a typing frame, socket 1 itself is among the attempted sends of its
own typing broadcast. -/
theorem C1_counterexample :
    (1, ServerJs.SrvOut.typing ⟨some "u1", some "Alice", none⟩ "lobby" 5) ∈
      ServerJs.onMessage [("lobby", [1, 2])] [1, 2] ⟨some "u1", some "Alice", none⟩
        "lobby" 5 (some ⟨some "typing", none⟩) "" := by decide

namespace ServerJs

/-- getRoom only returns entries of the rooms map. -/
theorem getRoom_mem {rooms : Rooms} {room : String} {s : List Ws}
    (h : getRoom rooms room = some s) : (room, s) ∈ rooms := by
  induction rooms with
  | nil => simp [getRoom] at h
  | cons p rest ih =>
    obtain ⟨q, s0⟩ := p
    by_cases hq : q = room
    · subst hq
      simp only [getRoom, if_pos rfl] at h
      cases Option.some.inj h
      exact List.mem_cons_self _ _
    · simp only [getRoom, if_neg hq] at h
      exact List.mem_cons_of_mem _ (ih h)

/-- getRoom misses every name that is not a key of the map. -/
theorem getRoom_eq_none {rooms : Rooms} {room : String}
    (h : room ∉ rooms.map Prod.fst) : getRoom rooms room = none := by
  induction rooms with
  | nil => rfl
  | cons p rest ih =>
    obtain ⟨q, s0⟩ := p
    simp only [List.map_cons, List.mem_cons, not_or] at h
    have hqr : ¬ q = room := fun hq => h.1 hq.symm
    simp only [getRoom, if_neg hqr]
    exact ih h.2

/-- Characterisation of the sends attempted by server.js's
broadcastToRoom: exactly the open-socket members of the room, with no
socket excluded, each receiving the broadcast frame. -/
theorem mem_srv_broadcastToRoom (rooms : Rooms) (openSet : List Ws) (room : String)
    (data : SrvOut) (w : Ws) (m : SrvOut) :
    (w, m) ∈ broadcastToRoom rooms openSet room data ↔
      (w ∈ membersOf rooms room ∧ w ∈ openSet ∧ m = data) := by
  unfold broadcastToRoom membersOf
  rcases h : getRoom rooms room with _ | s
  · simp
  · simp only [Option.getD_some]
    rw [List.mem_filterMap]
    constructor
    · rintro ⟨c, hc, hf⟩
      split_ifs at hf with h1
      rw [Option.some.injEq, Prod.mk.injEq] at hf
      obtain ⟨rfl, rfl⟩ := hf
      exact ⟨hc, h1, rfl⟩
    · rintro ⟨hw, ho, rfl⟩
      exact ⟨w, hw, by simp [ho]⟩

/-- The send list of a broadcast has no duplicate entries when the
room's member set has none. -/
theorem nodup_broadcastToRoom (rooms : Rooms) (openSet : List Ws) (room : String)
    (data : SrvOut) (h : ∀ s, getRoom rooms room = some s → s.Nodup) :
    (broadcastToRoom rooms openSet room data).Nodup := by
  unfold broadcastToRoom
  rcases hg : getRoom rooms room with _ | s
  · exact List.nodup_nil
  · refine List.Nodup.filterMap ?_ (h s hg)
    intro a a' b hb hb'
    rw [Option.mem_def] at hb hb'
    split_ifs at hb hb' with h1 h2
    rw [Option.some.injEq] at hb hb'
    have := hb.trans hb'.symm
    exact (Prod.mk.injEq .. ▸ this).1

/-- After removeMember runs for a socket that belonged only to room `r`,
no entry of the map contains that socket. -/
theorem not_mem_after_removeMember (ws : Ws) (r : String) :
    ∀ rooms : Rooms, roomsWF rooms →
      (∀ p ∈ rooms, ws ∈ (p.2 : List Ws) → p.1 = r) →
      ∀ q s', (q, s') ∈ removeMember rooms r ws → ws ∉ s' := by
  intro rooms
  induction rooms with
  | nil => intro _ _ q s' h; simp [removeMember] at h
  | cons p rest ih =>
    obtain ⟨q0, s0⟩ := p
    intro hwf honly q s' hmem hws
    obtain ⟨hkeys, hsets⟩ := hwf
    simp only [List.map_cons, List.nodup_cons] at hkeys
    have hrest_wf : roomsWF rest := ⟨hkeys.2, fun p hp => hsets p (List.mem_cons_of_mem _ hp)⟩
    have htail : ∀ p ∈ rest, ws ∈ (p.2 : List Ws) → p.1 = r :=
      fun p hp => honly p (List.mem_cons_of_mem _ hp)
    simp only [removeMember] at hmem
    by_cases hq0 : q0 = r
    · have hin_rest : (q, s') ∈ rest → False := by
        intro hq
        have hq_eq : q = r := htail (q, s') hq hws
        have hmap : q ∈ rest.map Prod.fst := List.mem_map_of_mem Prod.fst hq
        rw [hq_eq, ← hq0] at hmap
        exact hkeys.1 hmap
      rw [if_pos hq0] at hmem
      by_cases hz : s0.erase ws = []
      · rw [if_pos hz] at hmem
        exact hin_rest hmem
      · rw [if_neg hz] at hmem
        rcases List.mem_cons.mp hmem with hhead | htl
        · have hnd : (s0 : List Ws).Nodup := hsets (q0, s0) (List.mem_cons_self _ _)
          rw [Prod.mk.injEq] at hhead
          exact hnd.not_mem_erase (hhead.2 ▸ hws)
        · exact hin_rest htl
    · rw [if_neg hq0] at hmem
      rcases List.mem_cons.mp hmem with hhead | htl
      · rw [Prod.mk.injEq] at hhead
        exact hq0 (honly (q0, s0) (List.mem_cons_self _ _) (hhead.2 ▸ hws) : q0 = r)
      · exact (ih hrest_wf htail q s' htl) hws

/-- Effect of removeMember on the lookup of the removed room: the set
loses the socket, and the entry disappears when that empties it. -/
theorem getRoom_removeMember_self (ws : Ws) (r : String) :
    ∀ rooms : Rooms, (rooms.map Prod.fst).Nodup →
      getRoom (removeMember rooms r ws) r =
        (match getRoom rooms r with
          | none => none
          | some s => if s.erase ws = [] then none else some (s.erase ws)) := by
  intro rooms
  induction rooms with
  | nil => intro _; rfl
  | cons p rest ih =>
    obtain ⟨q0, s0⟩ := p
    intro hkeys
    simp only [List.map_cons, List.nodup_cons] at hkeys
    by_cases hq0 : q0 = r
    · have hL : removeMember ((q0, s0) :: rest) r ws =
          (if s0.erase ws = [] then rest else (q0, s0.erase ws) :: rest) := by
        show (if q0 = r then (if s0.erase ws = [] then rest else (q0, s0.erase ws) :: rest)
          else (q0, s0) :: removeMember rest r ws) = _
        rw [if_pos hq0]
      have hG : getRoom ((q0, s0) :: rest) r = some s0 := by
        show (if q0 = r then some s0 else getRoom rest r) = some s0
        rw [if_pos hq0]
      rw [hL, hG]
      by_cases hz : s0.erase ws = []
      · rw [if_pos hz]
        show getRoom rest r = (if s0.erase ws = [] then none else some (s0.erase ws))
        rw [if_pos hz]
        exact getRoom_eq_none (hq0 ▸ hkeys.1)
      · rw [if_neg hz]
        show (if q0 = r then some (s0.erase ws) else getRoom rest r) =
          (if s0.erase ws = [] then none else some (s0.erase ws))
        rw [if_pos hq0, if_neg hz]
    · have hL : removeMember ((q0, s0) :: rest) r ws = (q0, s0) :: removeMember rest r ws := by
        show (if q0 = r then (if s0.erase ws = [] then rest else (q0, s0.erase ws) :: rest)
          else (q0, s0) :: removeMember rest r ws) = _
        rw [if_neg hq0]
      have hG : getRoom ((q0, s0) :: rest) r = getRoom rest r := by
        show (if q0 = r then some s0 else getRoom rest r) = getRoom rest r
        rw [if_neg hq0]
      rw [hL, hG]
      show (if q0 = r then some s0 else getRoom (removeMember rest r ws) r) = _
      rw [if_neg hq0]
      exact ih hkeys.2

end ServerJs

namespace ServerJs

/-- joinRoom's member-set update keeps every present room non-empty. -/
theorem roomsInv_addMember (ws : Ws) (room : String) :
    ∀ rooms : Rooms, roomsInv rooms → roomsInv (addMember rooms room ws) := by
  intro rooms
  induction rooms with
  | nil =>
    intro _ p hp
    simp only [addMember, List.mem_singleton] at hp
    rw [hp]
    simp
  | cons hd rest ih =>
    obtain ⟨q, s⟩ := hd
    intro hinv p hp
    simp only [addMember] at hp
    by_cases hq : q = room
    · rw [if_pos hq] at hp
      rcases List.mem_cons.mp hp with h | h
      · rw [h]
        by_cases hm : ws ∈ s
        · rw [if_pos hm]
          exact hinv (q, s) (List.mem_cons_self _ _)
        · rw [if_neg hm]
          simp
      · exact hinv p (List.mem_cons_of_mem _ h)
    · rw [if_neg hq] at hp
      rcases List.mem_cons.mp hp with h | h
      · rw [h]
        exact hinv (q, s) (List.mem_cons_self _ _)
      · exact ih (fun p' hp' => hinv p' (List.mem_cons_of_mem _ hp')) p h

/-- leaveRoom's member-set update prunes an entry exactly when it empties,
so every surviving entry stays non-empty. -/
theorem roomsInv_removeMember (ws : Ws) (room : String) :
    ∀ rooms : Rooms, roomsInv rooms → roomsInv (removeMember rooms room ws) := by
  intro rooms
  induction rooms with
  | nil => intro h; exact h
  | cons hd rest ih =>
    obtain ⟨q, s⟩ := hd
    intro hinv p hp
    simp only [removeMember] at hp
    by_cases hq : q = room
    · rw [if_pos hq] at hp
      by_cases hz : s.erase ws = []
      · rw [if_pos hz] at hp
        exact hinv p (List.mem_cons_of_mem _ hp)
      · rw [if_neg hz] at hp
        rcases List.mem_cons.mp hp with h | h
        · rw [h]; exact hz
        · exact hinv p (List.mem_cons_of_mem _ h)
    · rw [if_neg hq] at hp
      rcases List.mem_cons.mp hp with h | h
      · rw [h]
        exact hinv (q, s) (List.mem_cons_self _ _)
      · exact ih (fun p' hp' => hinv p' (List.mem_cons_of_mem _ hp')) p h

/-- After joinRoom's update the joining socket is a member of the room. -/
theorem self_mem_addMember (ws : Ws) (room : String) :
    ∀ rooms : Rooms, ws ∈ membersOf (addMember rooms room ws) room := by
  intro rooms
  induction rooms with
  | nil => simp [addMember, membersOf, getRoom]
  | cons hd rest ih =>
    obtain ⟨q, s⟩ := hd
    by_cases hq : q = room
    · have h1 : addMember ((q, s) :: rest) room ws =
          (q, if ws ∈ s then s else s ++ [ws]) :: rest := by
        show (if q = room then (q, if ws ∈ s then s else s ++ [ws]) :: rest
          else (q, s) :: addMember rest room ws) = _
        rw [if_pos hq]
      rw [h1]
      unfold membersOf
      have h2 : getRoom ((q, if ws ∈ s then s else s ++ [ws]) :: rest) room =
          some (if ws ∈ s then s else s ++ [ws]) := by
        show (if q = room then some (if ws ∈ s then s else s ++ [ws])
          else getRoom rest room) = _
        rw [if_pos hq]
      rw [h2]
      simp only [Option.getD_some]
      by_cases hm : ws ∈ s
      · rw [if_pos hm]; exact hm
      · rw [if_neg hm]; exact List.mem_append_right s (List.mem_singleton.mpr rfl)
    · have h1 : addMember ((q, s) :: rest) room ws = (q, s) :: addMember rest room ws := by
        show (if q = room then (q, if ws ∈ s then s else s ++ [ws]) :: rest
          else (q, s) :: addMember rest room ws) = _
        rw [if_neg hq]
      rw [h1]
      unfold membersOf
      have h2 : getRoom ((q, s) :: addMember rest room ws) room =
          getRoom (addMember rest room ws) room := by
        show (if q = room then some s else getRoom (addMember rest room ws) room) = _
        rw [if_neg hq]
      rw [h2]
      exact ih

end ServerJs

/-- C7: the registry operations of server.js preserve the pruning
invariant: joinRoom keeps every present room entry non-empty and leaves
the joined socket a member of its room (creating the set when absent),
and leaveRoom deletes the room entry exactly when its member set becomes
empty, so a room name is present in the mapping iff its member set is
non-empty. -/
theorem C7_registry_pruning (st : ServerJs.SrvState) (ws : Ws) (room : String)
    (hinv : ServerJs.roomsInv st.rooms) :
    ServerJs.roomsInv (ServerJs.joinRoom st ws room).rooms ∧
    ws ∈ ServerJs.membersOf (ServerJs.joinRoom st ws room).rooms room ∧
    ServerJs.roomsInv (ServerJs.leaveRoom st ws).rooms := by
  refine ⟨?_, ?_, ?_⟩
  · exact ServerJs.roomsInv_addMember ws room st.rooms hinv
  · exact ServerJs.self_mem_addMember ws room st.rooms
  · unfold ServerJs.leaveRoom
    cases hw : ServerJs.getWsRoom st.wsRoom ws with
    | none => exact hinv
    | some r0 =>
      show ServerJs.roomsInv
        (match ServerJs.getRoom st.rooms r0 with
          | none => st
          | some _ => { st with rooms := ServerJs.removeMember st.rooms r0 ws }).rooms
      cases hg : ServerJs.getRoom st.rooms r0 with
      | none => exact hinv
      | some s0 => exact ServerJs.roomsInv_removeMember ws r0 st.rooms hinv

/-- Witness for C7: a concrete registry with one occupied room, a fresh
socket joining a fresh room and then leaving. -/
theorem C7_registry_pruning_witness :
    ServerJs.roomsInv [("lobby", [1])] ∧
    (ServerJs.roomsInv (ServerJs.joinRoom ⟨[("lobby", [1])], [(1, "lobby")]⟩ 2 "foyer").rooms ∧
      (2 : Ws) ∈ ServerJs.membersOf
        (ServerJs.joinRoom ⟨[("lobby", [1])], [(1, "lobby")]⟩ 2 "foyer").rooms "foyer" ∧
      ServerJs.roomsInv (ServerJs.leaveRoom ⟨[("lobby", [1])], [(1, "lobby")]⟩ 2).rooms) :=
  ⟨by decide, C7_registry_pruning ⟨[("lobby", [1])], [(1, "lobby")]⟩ 2 "foyer" (by decide)⟩

/-- C2: amended.  In server.js, when a connection closes the session is
removed from the registry (under the reachable-state facts that
`ws._room` is set and the socket appears only in that room's set), after
which no room's member set contains it and lookups no longer find it;
the room receives exactly one presence leave frame per remaining open
member, and the departed socket is not among the recipients.  (As stated
over the whole repository the claim fails: hoh-ws-server registers no
close handler at all, see the counterexample.) -/
theorem C2_disconnect_cleanup (st : ServerJs.SrvState) (openSet : List Ws) (ws : Ws)
    (user : ServerJs.SUser) (r : String) (now : Nat)
    (hwf : ServerJs.roomsWF st.rooms)
    (hr : ServerJs.getWsRoom st.wsRoom ws = some r)
    (honly : ∀ p ∈ st.rooms, ws ∈ (p.2 : List Ws) → p.1 = r) :
    (∀ q, ws ∉ ServerJs.membersOf (ServerJs.onClose st openSet ws user r now).1.rooms q) ∧
    (ServerJs.onClose st openSet ws user r now).2.Nodup ∧
    (∀ w m, (w, m) ∈ (ServerJs.onClose st openSet ws user r now).2 ↔
      (m = ServerJs.SrvOut.presence "leave" user r now ∧
        w ∈ ServerJs.membersOf st.rooms r ∧ w ≠ ws ∧ w ∈ openSet)) := by
  have hclose : ServerJs.onClose st openSet ws user r now =
      (ServerJs.leaveRoom st ws,
        ServerJs.broadcastToRoom (ServerJs.leaveRoom st ws).rooms openSet r
          (ServerJs.SrvOut.presence "leave" user r now)) := rfl
  rw [hclose]
  cases hg : ServerJs.getRoom st.rooms r with
  | none =>
    have hlv : ServerJs.leaveRoom st ws = st := by
      simp only [ServerJs.leaveRoom, hr, hg]
    rw [hlv]
    refine ⟨?_, ?_, ?_⟩
    · intro q hq
      unfold ServerJs.membersOf at hq
      cases hgq : ServerJs.getRoom st.rooms q with
      | none => rw [hgq] at hq; simp at hq
      | some sq =>
        rw [hgq] at hq
        simp only [Option.getD_some] at hq
        have hqr : q = r := honly (q, sq) (ServerJs.getRoom_mem hgq) hq
        rw [hqr, hg] at hgq
        exact Option.noConfusion hgq
    · exact ServerJs.nodup_broadcastToRoom _ _ _ _
        (fun s hs => by rw [hg] at hs; exact Option.noConfusion hs)
    · intro w m
      rw [ServerJs.mem_srv_broadcastToRoom]
      simp [ServerJs.membersOf, hg]
  | some s =>
    have hnds : s.Nodup := hwf.2 (r, s) (ServerJs.getRoom_mem hg)
    have hlv : ServerJs.leaveRoom st ws =
        { st with rooms := ServerJs.removeMember st.rooms r ws } := by
      simp only [ServerJs.leaveRoom, hr, hg]
    rw [hlv]
    have hgrm : ServerJs.getRoom (ServerJs.removeMember st.rooms r ws) r =
        (if s.erase ws = [] then none else some (s.erase ws)) := by
      rw [ServerJs.getRoom_removeMember_self ws r st.rooms hwf.1, hg]
    have hmem_iff : ∀ w : Ws,
        w ∈ ServerJs.membersOf (ServerJs.removeMember st.rooms r ws) r ↔
          (w ≠ ws ∧ w ∈ s) := by
      intro w
      unfold ServerJs.membersOf
      rw [hgrm]
      by_cases hz : s.erase ws = []
      · rw [if_pos hz]
        simp only [Option.getD_none, List.not_mem_nil, false_iff]
        rintro ⟨hne, hws'⟩
        have hmem : w ∈ s.erase ws := hnds.mem_erase_iff.mpr ⟨hne, hws'⟩
        rw [hz] at hmem
        exact List.not_mem_nil w hmem
      · rw [if_neg hz]
        simp only [Option.getD_some]
        exact hnds.mem_erase_iff
    refine ⟨?_, ?_, ?_⟩
    · intro q hq
      unfold ServerJs.membersOf at hq
      cases hgq : ServerJs.getRoom (ServerJs.removeMember st.rooms r ws) q with
      | none => rw [hgq] at hq; simp at hq
      | some sq =>
        rw [hgq] at hq
        simp only [Option.getD_some] at hq
        exact (ServerJs.not_mem_after_removeMember ws r st.rooms hwf honly q sq
          (ServerJs.getRoom_mem hgq)) hq
    · refine ServerJs.nodup_broadcastToRoom _ _ _ _ (fun s' hs' => ?_)
      rw [hgrm] at hs'
      by_cases hz : s.erase ws = []
      · rw [if_pos hz] at hs'
        exact Option.noConfusion hs'
      · rw [if_neg hz] at hs'
        cases Option.some.inj hs'
        exact hnds.erase ws
    · intro w m
      rw [ServerJs.mem_srv_broadcastToRoom, hmem_iff w]
      unfold ServerJs.membersOf
      rw [hg]
      simp only [Option.getD_some]
      constructor
      · rintro ⟨⟨hne, hws'⟩, ho, rfl⟩
        exact ⟨rfl, hws', hne, ho⟩
      · rintro ⟨rfl, hws', hne, ho⟩
        exact ⟨⟨hne, hws'⟩, ho, rfl⟩

/-- Witness for C2: two sockets in room lobby, socket 1 disconnects while
socket 2 remains open; the hypotheses hold and the conclusion follows by
the theorem. -/
theorem C2_disconnect_cleanup_witness :
    ServerJs.roomsWF [("lobby", [1, 2])] ∧
    ServerJs.getWsRoom [(1, "lobby"), (2, "lobby")] 1 = some "lobby" ∧
    (∀ p ∈ [(("lobby" : String), ([1, 2] : List Ws))], (1 : Ws) ∈ p.2 → p.1 = "lobby") ∧
    ((∀ q, (1 : Ws) ∉ ServerJs.membersOf
        (ServerJs.onClose ⟨[("lobby", [1, 2])], [(1, "lobby"), (2, "lobby")]⟩ [2] 1
          ⟨some "u1", some "Alice", none⟩ "lobby" 9).1.rooms q) ∧
      (ServerJs.onClose ⟨[("lobby", [1, 2])], [(1, "lobby"), (2, "lobby")]⟩ [2] 1
          ⟨some "u1", some "Alice", none⟩ "lobby" 9).2.Nodup ∧
      (∀ w m, (w, m) ∈ (ServerJs.onClose ⟨[("lobby", [1, 2])], [(1, "lobby"), (2, "lobby")]⟩
          [2] 1 ⟨some "u1", some "Alice", none⟩ "lobby" 9).2 ↔
        (m = ServerJs.SrvOut.presence "leave" ⟨some "u1", some "Alice", none⟩ "lobby" 9 ∧
          w ∈ ServerJs.membersOf [("lobby", [1, 2])] "lobby" ∧ w ≠ 1 ∧ w ∈ [2]))) :=
  ⟨by decide, by decide, by decide,
    C2_disconnect_cleanup ⟨[("lobby", [1, 2])], [(1, "lobby"), (2, "lobby")]⟩ [2] 1
      ⟨some "u1", some "Alice", none⟩ "lobby" 9 (by decide) (by decide) (by decide)⟩

/-- Counterexample to C2 as stated: hoh-ws-server registers no
`ws.on('close')` handler and never deletes from the clients map, so when
socket 1 (a member of room lobby, with socket 2 co-present) disconnects,
the presence map is unchanged, socket 1 is still found by lookups with
lobby among its rooms, and no presence leave frame is sent to anybody. -/
theorem C2_counterexample :
    HohWs.onClose
        [(1, ⟨some "u1", "Alice", ["lobby"]⟩), (2, ⟨some "u2", "Bob", ["lobby"]⟩)] 1 =
      ([(1, ⟨some "u1", "Alice", ["lobby"]⟩), (2, ⟨some "u2", "Bob", ["lobby"]⟩)], []) ∧
    HohWs.getClient
        (HohWs.onClose
          [(1, ⟨some "u1", "Alice", ["lobby"]⟩), (2, ⟨some "u2", "Bob", ["lobby"]⟩)] 1).1 1 =
      some ⟨some "u1", "Alice", ["lobby"]⟩ :=
  ⟨rfl, rfl⟩

/-- C3: amended.  In hoh-ws-server a frame that fails JSON parsing is
discarded silently: the clients map, the sends, the logs, the close flag
and the throw flag all show no effect; but the claim as stated fails
elsewhere: a message:new frame missing its `message` object first adds
body_chat to the sender's rooms and then raises a TypeError (second
conjunct), and in server.js a non-JSON frame is not dropped at all but
broadcast as a chat message carrying the raw text (counterexample). -/
theorem C3_malformed_frames (clients : HohWs.Clients) (openSet : List Ws) (ws : Ws)
    (userId : Option String) (uname : String) (now : Nat)
    (wr : Except String String) (msg : HohWs.HohMsg)
    (htype : msg.type = some "message:new") (hbody : msg.message = none) :
    HohWs.onMessage clients openSet ws userId uname now none wr =
      ⟨clients, [], [], false, false⟩ ∧
    HohWs.onMessage clients openSet ws userId uname now (some msg) wr =
      ⟨HohWs.updateMeta clients ws
          (fun m => { m with rooms := HohWs.addRoom m.rooms "body_chat" }),
        [], [], false, true⟩ := by
  constructor
  · rfl
  · simp [HohWs.onMessage, htype, hbody]

/-- Witness for C3: a concrete frame of type message:new with no message
object; the handler mutates the sender's rooms and reports a throw. -/
theorem C3_malformed_frames_witness :
    ((⟨some "message:new", none, none, none, none, none⟩ : HohWs.HohMsg).type =
      some "message:new") ∧
    ((⟨some "message:new", none, none, none, none, none⟩ : HohWs.HohMsg).message = none) ∧
    (HohWs.onMessage [(1, ⟨some "u1", "Alice", []⟩)] [1] 1 (some "u1") "Alice" 0
        none (.ok "s") = ⟨[(1, ⟨some "u1", "Alice", []⟩)], [], [], false, false⟩ ∧
      HohWs.onMessage [(1, ⟨some "u1", "Alice", []⟩)] [1] 1 (some "u1") "Alice" 0
        (some ⟨some "message:new", none, none, none, none, none⟩) (.ok "s") =
      ⟨HohWs.updateMeta [(1, ⟨some "u1", "Alice", []⟩)] 1
          (fun m => { m with rooms := HohWs.addRoom m.rooms "body_chat" }),
        [], [], false, true⟩) :=
  ⟨rfl, rfl,
    C3_malformed_frames [(1, ⟨some "u1", "Alice", []⟩)] [1] 1 (some "u1") "Alice" 0
      (.ok "s") ⟨some "message:new", none, none, none, none, none⟩ rfl rfl⟩

/-- Counterexample to C3 as stated: server.js does not discard a non-JSON
frame.  When JSON.parse throws, the raw text is coerced to a chat message
and broadcast to the whole room (sender included), so an unparseable
frame produces outbound frames. -/
theorem C3_counterexample :
    ServerJs.onMessage [("lobby", [1, 2])] [1, 2] ⟨some "u1", some "Alice", none⟩
        "lobby" 3 none "hello" =
      [(1, .chat ⟨some "u1", some "Alice", none⟩ "lobby" "hello" 3),
        (2, .chat ⟨some "u1", some "Alice", none⟩ "lobby" "hello" 3)] := by decide

/-- C4: amended.  Both servers close 4001 when no token is supplied and
4002 when verification fails, doing nothing else; but there is no
distinct ServerMisconfigured path: server.js closes a missing-secret
connection with the same 4001 code used for a missing token, and
hoh-ws-server substitutes the hard-coded default secret when none is
configured, accepting tokens that verify against it (counterexample). -/
theorem C4_auth_failures :
    (∀ (env : Option String) (roomsQ : Option String) (clients : HohWs.Clients) (ws : Ws),
      HohWs.onConnection env none roomsQ clients ws = .closed 4001 "Missing token") ∧
    (∀ (env : Option String) (t : Token) (roomsQ : Option String)
        (clients : HohWs.Clients) (ws : Ws),
      jwtVerify t (HohWs.JWT_SECRET env) = none →
      HohWs.onConnection env (some t) roomsQ clients ws = .closed 4002 "Invalid token") ∧
    (∀ (env : Option String) (roomQ : Option String) (st : ServerJs.SrvState)
        (openSet : List Ws) (ws : Ws) (now : Nat),
      ServerJs.onConnection env none roomQ st openSet ws now =
        .closed 4001 "Missing token or server secret") ∧
    (∀ (tok : Option Token) (roomQ : Option String) (st : ServerJs.SrvState)
        (openSet : List Ws) (ws : Ws) (now : Nat),
      ServerJs.onConnection none tok roomQ st openSet ws now =
        .closed 4001 "Missing token or server secret") ∧
    (∀ (t : Token) (roomQ : Option String) (st : ServerJs.SrvState)
        (openSet : List Ws) (ws : Ws) (now : Nat),
      ServerJs.onConnection (some "") (some t) roomQ st openSet ws now =
        .closed 4001 "Missing token or server secret") ∧
    (∀ (secret : String) (t : Token) (roomQ : Option String) (st : ServerJs.SrvState)
        (openSet : List Ws) (ws : Ws) (now : Nat),
      secret ≠ "" → jwtVerify t secret = none →
      ServerJs.onConnection (some secret) (some t) roomQ st openSet ws now =
        .closed 4002 "Invalid token") := by
  refine ⟨fun env roomsQ clients ws => rfl, ?_, ?_, ?_, ?_, ?_⟩
  · intro env t roomsQ clients ws h
    simp [HohWs.onConnection, h]
  · intro env roomQ st openSet ws now
    cases env with
    | none => rfl
    | some secret => rfl
  · intro tok roomQ st openSet ws now
    cases tok with
    | none => rfl
    | some t => rfl
  · intro t roomQ st openSet ws now
    simp [ServerJs.onConnection]
  · intro secret t roomQ st openSet ws now h1 h2
    simp [ServerJs.onConnection, if_neg h1, h2]

/-- Witness for C4: an unverifiable token is rejected with 4002 by both
servers at concrete inputs. -/
theorem C4_auth_failures_witness :
    jwtVerify ⟨none, none, none, none, "bad", false⟩ (HohWs.JWT_SECRET none) = none ∧
    HohWs.onConnection none (some ⟨none, none, none, none, "bad", false⟩) none [] 1 =
      .closed 4002 "Invalid token" ∧
    ServerJs.onConnection (some "s") none none ⟨[], []⟩ [] 1 0 =
      .closed 4001 "Missing token or server secret" ∧
    ("s" : String) ≠ "" ∧
    jwtVerify ⟨none, none, none, none, "t", false⟩ "s" = none ∧
    ServerJs.onConnection (some "s") (some ⟨none, none, none, none, "t", false⟩) none
      ⟨[], []⟩ [] 1 0 = .closed 4002 "Invalid token" :=
  ⟨by decide,
    C4_auth_failures.2.1 none ⟨none, none, none, none, "bad", false⟩ none [] 1 (by decide),
    C4_auth_failures.2.2.1 (some "s") none ⟨[], []⟩ [] 1 0,
    by decide, by decide,
    C4_auth_failures.2.2.2.2.2 "s" ⟨none, none, none, none, "t", false⟩ none ⟨[], []⟩ [] 1 0
      (by decide) (by decide)⟩

/-- Counterexample to C4 as stated: with no verification secret
configured, hoh-ws-server falls back to the default secret
'change-me-in-production' and accepts a connection whose token verifies
against it — the connection is not closed, so a missing secret does
result in accepting the connection and no ServerMisconfigured close code
exists. -/
theorem C4_counterexample :
    HohWs.onConnection none
        (some ⟨some "u1", none, some "Alice", none, "change-me-in-production", false⟩)
        none [] 1 =
      .accepted [(1, ⟨some "u1", "Alice", []⟩)]
        [(1, .connected (some "u1") "Alice" [])] := by decide

namespace HohWs

/-- Looking up a key right after Map.set finds the stored value. -/
theorem getClient_setClient_self (ws : Ws) (meta : Meta) :
    ∀ clients : Clients, getClient (setClient clients ws meta) ws = some meta := by
  intro clients
  induction clients with
  | nil => simp [setClient, getClient]
  | cons hd rest ih =>
    obtain ⟨w, m⟩ := hd
    by_cases hw : w = ws
    · have h1 : setClient ((w, m) :: rest) ws meta = (w, meta) :: rest := by
        show (if w = ws then (w, meta) :: rest else (w, m) :: setClient rest ws meta) = _
        rw [if_pos hw]
      rw [h1]
      show (if w = ws then some meta else getClient rest ws) = some meta
      rw [if_pos hw]
    · have h1 : setClient ((w, m) :: rest) ws meta = (w, m) :: setClient rest ws meta := by
        show (if w = ws then (w, meta) :: rest else (w, m) :: setClient rest ws meta) = _
        rw [if_neg hw]
      rw [h1]
      show (if w = ws then some m else getClient (setClient rest ws meta) ws) = some meta
      rw [if_neg hw]
      exact ih

end HohWs

/-- C5: in hoh-ws-server, every successful authentication registers the
session with joinedRooms seeded from the comma-separated rooms query
parameter (entries trimmed, empties dropped) and sends exactly one
connected frame, carrying the resolved identity and that room list.
(As a claim about the whole repository it fails: server.js never sends a
connected frame, see the counterexample.) -/
theorem C5_connected_seeding (env : Option String) (t : Token) (roomsQ : Option String)
    (clients : HohWs.Clients) (ws : Ws)
    (h : jwtVerify t (HohWs.JWT_SECRET env) = some t) :
    ∃ c, HohWs.onConnection env (some t) roomsQ clients ws =
        .accepted c
          [(ws, HohWs.Out.connected (jsOr t.sub t.user_id) (jsOrD t.name "Guest")
            (HohWs.parseRooms roomsQ))] ∧
      HohWs.getClient c ws =
        some ⟨jsOr t.sub t.user_id, jsOrD t.name "Guest", HohWs.parseRooms roomsQ⟩ := by
  refine ⟨HohWs.setClient clients ws
    ⟨jsOr t.sub t.user_id, jsOrD t.name "Guest", HohWs.parseRooms roomsQ⟩, ?_, ?_⟩
  · simp [HohWs.onConnection, h]
  · exact HohWs.getClient_setClient_self ws _ clients

/-- Witness for C5: a token signed with the configured secret, connecting
with a rooms parameter containing spaces, an empty entry and a repeat;
the seeded list is the trimmed, deduplicated, non-empty entries. -/
theorem C5_connected_seeding_witness :
    jwtVerify ⟨some "u1", none, some "Alice", none, "k", false⟩ (HohWs.JWT_SECRET (some "k")) =
      some ⟨some "u1", none, some "Alice", none, "k", false⟩ ∧
    (∃ c, HohWs.onConnection (some "k")
          (some ⟨some "u1", none, some "Alice", none, "k", false⟩)
          (some " a, b ,,a") [] 1 =
        .accepted c
          [(1, HohWs.Out.connected
            (jsOr (some "u1") none) (jsOrD (some "Alice") "Guest")
            (HohWs.parseRooms (some " a, b ,,a")))] ∧
      HohWs.getClient c 1 =
        some ⟨jsOr (some "u1") none, jsOrD (some "Alice") "Guest",
          HohWs.parseRooms (some " a, b ,,a")⟩) :=
  ⟨by decide,
    C5_connected_seeding (some "k") ⟨some "u1", none, some "Alice", none, "k", false⟩
      (some " a, b ,,a") [] 1 (by decide)⟩

/-- Sanity check of the room-list seeding on the witness input: the
trimmed, deduplicated resolved list. -/
theorem parseRooms_witness_value : HohWs.parseRooms (some " a, b ,,a") = ["a", "b"] := by
  decide

/-- Counterexample to C5 as stated: a successful server.js authentication
sends no connected frame at all — the only frames sent are the presence
join broadcast to the (single, defaulted) room, here delivered to the
joining socket itself. -/
theorem C5_counterexample :
    ServerJs.onConnection (some "k")
        (some ⟨some "u1", none, some "Alice", none, "k", false⟩) none ⟨[], []⟩ [1] 1 4 =
      .accepted ⟨[("team_chat", [1])], [(1, "team_chat")]⟩ "team_chat"
        ⟨some "u1", some "Alice", none⟩
        [(1, .presence "join" ⟨some "u1", some "Alice", none⟩ "team_chat" 4)] := by decide

/-- C6: amended.  For every POST /emit request the response is 400 with a
short reason iff the body is unparsable or the room or event field is
missing or empty (JS-falsy); otherwise the response is 200 and exactly
one system-sourced event broadcast is attempted, reaching every open
member of the room with no socket excluded, and a request naming a room
with no members succeeds with zero deliveries. -/
theorem C6_emit_endpoint (clients : HohWs.Clients) (openSet : List Ws)
    (body : Option HohWs.EmitBody) :
    ((HohWs.handleEmit clients openSet body).status = 400 ↔
      (body = none ∨ ∃ b, body = some b ∧
        (jsTruthy b.room = false ∨ jsTruthy b.event = false))) ∧
    (∀ b, body = some b → jsTruthy b.room → jsTruthy b.event →
      (HohWs.handleEmit clients openSet body).status = 200 ∧
      (∀ w m, (w, m) ∈ (HohWs.handleEmit clients openSet body).sends ↔
        ((∃ meta, (w, meta) ∈ clients ∧ (b.room.getD "") ∈ meta.rooms) ∧ w ∈ openSet ∧
          m = HohWs.Out.ev (b.room.getD "") (b.event.getD "") (jsOrEmptyObj b.data)
            .system)) ∧
      ((∀ p ∈ clients, (b.room.getD "") ∉ (p.2 : HohWs.Meta).rooms) →
        (HohWs.handleEmit clients openSet body).sends = [])) := by
  constructor
  · cases body with
    | none =>
      constructor
      · intro _; exact Or.inl rfl
      · intro _; rfl
    | some b =>
      by_cases hc : jsTruthy b.room = false ∨ jsTruthy b.event = false
      · have hs : (HohWs.handleEmit clients openSet (some b)).status = 400 := by
          simp [HohWs.handleEmit, hc]
        exact ⟨fun _ => Or.inr ⟨b, rfl, hc⟩, fun _ => hs⟩
      · have hs : (HohWs.handleEmit clients openSet (some b)).status = 200 := by
          simp [HohWs.handleEmit, hc]
        constructor
        · intro h400
          exact absurd (hs.symm.trans h400) (by decide)
        · rintro (hnone | ⟨b', hb', hcond⟩)
          · exact Option.noConfusion hnone
          · cases Option.some.inj hb'
            exact absurd hcond hc
  · intro b hb hroom hevent
    subst hb
    have hcond : ¬(jsTruthy b.room = false ∨ jsTruthy b.event = false) := by
      rintro (h | h)
      · rw [h] at hroom; exact Bool.noConfusion hroom
      · rw [h] at hevent; exact Bool.noConfusion hevent
    have hE : HohWs.handleEmit clients openSet (some b) =
        ⟨200, "OK",
          HohWs.broadcastToRoom clients openSet (b.room.getD "")
            (HohWs.Out.ev (b.room.getD "") (b.event.getD "") (jsOrEmptyObj b.data)
              EvSource.system) none⟩ := by
      simp [HohWs.handleEmit, hcond]
    rw [hE]
    refine ⟨rfl, ?_, ?_⟩
    · intro w m
      rw [HohWs.mem_broadcastToRoom]
      simp
    · intro hempty
      rw [List.eq_nil_iff_forall_not_mem]
      rintro ⟨pw, pm⟩ hp
      obtain ⟨⟨meta, hmc, hmr⟩, -, -, -⟩ :=
        (HohWs.mem_broadcastToRoom _ _ _ _ _ pw pm).mp hp
      exact (hempty (pw, meta) hmc) hmr

/-- Witness for C6: an /emit body naming room lobby with one open member;
the request succeeds with status 200. -/
theorem C6_emit_endpoint_witness :
    (some (⟨some "lobby", some "announcement", some "d"⟩ : HohWs.EmitBody) =
      some ⟨some "lobby", some "announcement", some "d"⟩) ∧
    jsTruthy (some "lobby") ∧ jsTruthy (some "announcement") ∧
    ((HohWs.handleEmit [(1, ⟨some "u1", "Alice", ["lobby"]⟩)] [1]
        (some ⟨some "lobby", some "announcement", some "d"⟩)).status = 200 ∧
      (∀ w m, (w, m) ∈ (HohWs.handleEmit [(1, ⟨some "u1", "Alice", ["lobby"]⟩)] [1]
          (some ⟨some "lobby", some "announcement", some "d"⟩)).sends ↔
        ((∃ meta, (w, meta) ∈ [(1, (⟨some "u1", "Alice", ["lobby"]⟩ : HohWs.Meta))] ∧
            "lobby" ∈ meta.rooms) ∧ w ∈ [1] ∧
          m = HohWs.Out.ev "lobby" "announcement" "d" EvSource.system)) ∧
      ((∀ p ∈ [(1, (⟨some "u1", "Alice", ["lobby"]⟩ : HohWs.Meta))],
          "lobby" ∉ (p.2 : HohWs.Meta).rooms) →
        (HohWs.handleEmit [(1, ⟨some "u1", "Alice", ["lobby"]⟩)] [1]
          (some ⟨some "lobby", some "announcement", some "d"⟩)).sends = [])) :=
  ⟨rfl, by decide, by decide,
    (C6_emit_endpoint [(1, ⟨some "u1", "Alice", ["lobby"]⟩)] [1]
      (some ⟨some "lobby", some "announcement", some "d"⟩)).2
      ⟨some "lobby", some "announcement", some "d"⟩ rfl (by decide) (by decide)⟩

/-- Counterexample to C6 as stated: a parsable body in which both fields
are present but the room is the empty string is answered 400, although
neither field is missing and the body parses — the 400-iff-missing
equivalence fails on JS-falsy present values. -/
theorem C6_counterexample :
    (HohWs.handleEmit [] [] (some ⟨some "", some "x", none⟩)).status = 400 ∧
    ((⟨some "", some "x", none⟩ : HohWs.EmitBody).room).isSome = true ∧
    ((⟨some "", some "x", none⟩ : HohWs.EmitBody).event).isSome = true := by
  decide

/-- C8: when the external persistence write for a message:new frame
fails, the failure is logged, the broadcast is skipped (no sends), the
socket is neither closed nor crashed, and the resulting registry state is
exactly the state of the success path (the unconditional body_chat
auto-join performed before the write) — nothing else changes. -/
theorem C8_write_failure_isolated (clients : HohWs.Clients) (openSet : List Ws)
    (ws : Ws) (userId : Option String) (uname : String) (now : Nat)
    (msg : HohWs.HohMsg) (body : HohWs.MsgBody) (e saved : String)
    (htype : msg.type = some "message:new") (hbody : msg.message = some body) :
    (HohWs.onMessage clients openSet ws userId uname now (some msg)
        (.error e)).clients =
      HohWs.updateMeta clients ws
        (fun m => { m with rooms := HohWs.addRoom m.rooms "body_chat" }) ∧
    (HohWs.onMessage clients openSet ws userId uname now (some msg) (.error e)).sends = [] ∧
    (HohWs.onMessage clients openSet ws userId uname now (some msg) (.error e)).logs =
      ["Failed to save Body Chat message: " ++ e] ∧
    (HohWs.onMessage clients openSet ws userId uname now (some msg) (.error e)).closed =
      false ∧
    (HohWs.onMessage clients openSet ws userId uname now (some msg) (.error e)).threw =
      false ∧
    (HohWs.onMessage clients openSet ws userId uname now (some msg) (.error e)).clients =
      (HohWs.onMessage clients openSet ws userId uname now (some msg) (.ok saved)).clients := by
  have hf : HohWs.onMessage clients openSet ws userId uname now (some msg) (.error e) =
      ⟨HohWs.updateMeta clients ws
          (fun m => { m with rooms := HohWs.addRoom m.rooms "body_chat" }),
        [], ["Failed to save Body Chat message: " ++ e], false, false⟩ := by
    simp [HohWs.onMessage, htype, hbody]
  have hs : HohWs.onMessage clients openSet ws userId uname now (some msg) (.ok saved) =
      ⟨HohWs.updateMeta clients ws
          (fun m => { m with rooms := HohWs.addRoom m.rooms "body_chat" }),
        HohWs.broadcastToRoom
          (HohWs.updateMeta clients ws
            (fun m => { m with rooms := HohWs.addRoom m.rooms "body_chat" }))
          openSet "body_chat" (HohWs.Out.msgNew saved) (some ws),
        [], false, false⟩ := by
    simp [HohWs.onMessage, htype, hbody]
  rw [hf, hs]
  exact ⟨rfl, rfl, rfl, rfl, rfl, rfl⟩

/-- Witness for C8: a concrete well-formed message:new frame whose
persistence write fails; the handler only logs and auto-joins body_chat. -/
theorem C8_write_failure_isolated_witness :
    ((⟨some "message:new", none, none, some "7", some ⟨some "hi", none, none⟩, none⟩ :
        HohWs.HohMsg).type = some "message:new") ∧
    ((⟨some "message:new", none, none, some "7", some ⟨some "hi", none, none⟩, none⟩ :
        HohWs.HohMsg).message = some ⟨some "hi", none, none⟩) ∧
    ((HohWs.onMessage [(1, ⟨some "u1", "Alice", []⟩)] [1] 1 (some "u1") "Alice" 2
        (some ⟨some "message:new", none, none, some "7", some ⟨some "hi", none, none⟩, none⟩)
        (.error "down")).clients =
      HohWs.updateMeta [(1, ⟨some "u1", "Alice", []⟩)] 1
        (fun m => { m with rooms := HohWs.addRoom m.rooms "body_chat" }) ∧
      (HohWs.onMessage [(1, ⟨some "u1", "Alice", []⟩)] [1] 1 (some "u1") "Alice" 2
        (some ⟨some "message:new", none, none, some "7", some ⟨some "hi", none, none⟩, none⟩)
        (.error "down")).sends = [] ∧
      (HohWs.onMessage [(1, ⟨some "u1", "Alice", []⟩)] [1] 1 (some "u1") "Alice" 2
        (some ⟨some "message:new", none, none, some "7", some ⟨some "hi", none, none⟩, none⟩)
        (.error "down")).logs = ["Failed to save Body Chat message: " ++ "down"] ∧
      (HohWs.onMessage [(1, ⟨some "u1", "Alice", []⟩)] [1] 1 (some "u1") "Alice" 2
        (some ⟨some "message:new", none, none, some "7", some ⟨some "hi", none, none⟩, none⟩)
        (.error "down")).closed = false ∧
      (HohWs.onMessage [(1, ⟨some "u1", "Alice", []⟩)] [1] 1 (some "u1") "Alice" 2
        (some ⟨some "message:new", none, none, some "7", some ⟨some "hi", none, none⟩, none⟩)
        (.error "down")).threw = false ∧
      (HohWs.onMessage [(1, ⟨some "u1", "Alice", []⟩)] [1] 1 (some "u1") "Alice" 2
        (some ⟨some "message:new", none, none, some "7", some ⟨some "hi", none, none⟩, none⟩)
        (.error "down")).clients =
      (HohWs.onMessage [(1, ⟨some "u1", "Alice", []⟩)] [1] 1 (some "u1") "Alice" 2
        (some ⟨some "message:new", none, none, some "7", some ⟨some "hi", none, none⟩, none⟩)
        (.ok "saved")).clients) :=
  ⟨rfl, rfl,
    C8_write_failure_isolated [(1, ⟨some "u1", "Alice", []⟩)] [1] 1 (some "u1") "Alice" 2
      ⟨some "message:new", none, none, some "7", some ⟨some "hi", none, none⟩, none⟩
      ⟨some "hi", none, none⟩ "down" "saved" rfl rfl⟩

namespace HohWs

/-- The Set-add of the join handler is the identity on an already-joined
room, so the stored meta object is unchanged. -/
theorem updateMeta_addRoom_mem (room : String) (ws : Ws) :
    ∀ (clients : Clients) (meta : Meta), getClient clients ws = some meta →
      room ∈ meta.rooms →
      updateMeta clients ws (fun m => { m with rooms := addRoom m.rooms room }) =
        clients := by
  intro clients
  induction clients with
  | nil => intro meta h _; exact absurd h (by simp [getClient])
  | cons hd rest ih =>
    obtain ⟨w, m⟩ := hd
    intro meta h hr
    simp only [updateMeta]
    by_cases hw : w = ws
    · rw [if_pos hw]
      have hm : m = meta := by
        have h2 : (if w = ws then some m else getClient rest ws) = some meta := h
        rw [if_pos hw] at h2
        exact Option.some.inj h2
      subst hm
      have ha : addRoom m.rooms room = m.rooms := by
        unfold addRoom
        rw [if_pos hr]
      rw [ha]
    · rw [if_neg hw]
      have h2 : getClient rest ws = some meta := by
        have h3 : (if w = ws then some m else getClient rest ws) = some meta := h
        rw [if_neg hw] at h3
        exact h3
      rw [ih meta h2 hr]

end HohWs

namespace ServerJs

/-- joinRoom's member-set update is the identity when the socket is
already a member of the room. -/
theorem addMember_mem_self_eq (ws : Ws) (room : String) :
    ∀ rooms : Rooms, ws ∈ membersOf rooms room → addMember rooms room ws = rooms := by
  intro rooms
  induction rooms with
  | nil => intro h; exact absurd h (by simp [membersOf, getRoom])
  | cons hd rest ih =>
    obtain ⟨q, s⟩ := hd
    intro h
    simp only [addMember]
    by_cases hq : q = room
    · have hs : ws ∈ s := by
        unfold membersOf at h
        have h2 : getRoom ((q, s) :: rest) room = some s := by
          show (if q = room then some s else getRoom rest room) = some s
          rw [if_pos hq]
        rw [h2] at h
        simpa using h
      rw [if_pos hq, if_pos hs]
    · have h2 : ws ∈ membersOf rest room := by
        unfold membersOf at h ⊢
        have h3 : getRoom ((q, s) :: rest) room = getRoom rest room := by
          show (if q = room then some s else getRoom rest room) = getRoom rest room
          rw [if_neg hq]
        rw [h3] at h
        exact h
      rw [if_neg hq, ih h2]

/-- The assignment `ws._room = room` is the identity when `ws._room`
already holds that room. -/
theorem setWsRoom_self_eq (ws : Ws) (room : String) :
    ∀ l : List (Ws × String), getWsRoom l ws = some room → setWsRoom l ws room = l := by
  intro l
  induction l with
  | nil => intro h; exact Option.noConfusion h
  | cons hd rest ih =>
    obtain ⟨w, r⟩ := hd
    intro h
    simp only [setWsRoom]
    by_cases hw : w = ws
    · have hr : r = room := by
        have h2 : (if w = ws then some r else getWsRoom rest ws) = some room := h
        rw [if_pos hw] at h2
        exact Option.some.inj h2
      rw [if_pos hw, hr]
    · have h2 : getWsRoom rest ws = some room := by
        have h3 : (if w = ws then some r else getWsRoom rest ws) = some room := h
        rw [if_neg hw] at h3
        exact h3
      rw [if_neg hw, ih h2]

end ServerJs

/-- C9: joining an already-joined room is a no-op on the registry and on
the session's joinedRooms, in both servers: the hoh-ws-server join
handler's Set-add leaves the rooms set and the clients map unchanged, and
server.js's joinRoom leaves the whole room state unchanged when the
socket is already a member with `ws._room` already set to the room. -/
theorem C9_join_idempotent :
    (∀ (rs : List String) (room : String), room ∈ rs → HohWs.addRoom rs room = rs) ∧
    (∀ (clients : HohWs.Clients) (ws : Ws) (meta : HohWs.Meta) (room : String),
      HohWs.getClient clients ws = some meta → room ∈ meta.rooms →
      HohWs.updateMeta clients ws
        (fun m => { m with rooms := HohWs.addRoom m.rooms room }) = clients) ∧
    (∀ (st : ServerJs.SrvState) (ws : Ws) (room : String),
      ws ∈ ServerJs.membersOf st.rooms room →
      ServerJs.getWsRoom st.wsRoom ws = some room →
      ServerJs.joinRoom st ws room = st) := by
  refine ⟨?_, ?_, ?_⟩
  · intro rs room h
    unfold HohWs.addRoom
    rw [if_pos h]
  · intro clients ws meta room h hr
    exact HohWs.updateMeta_addRoom_mem room ws clients meta h hr
  · intro st ws room hmem hwr
    show (⟨ServerJs.addMember st.rooms room ws,
      ServerJs.setWsRoom st.wsRoom ws room⟩ : ServerJs.SrvState) = st
    rw [ServerJs.addMember_mem_self_eq ws room st.rooms hmem,
      ServerJs.setWsRoom_self_eq ws room st.wsRoom hwr]

/-- Witness for C9: a socket already joined to room lobby in both models;
a repeated join changes nothing. -/
theorem C9_join_idempotent_witness :
    ("lobby" ∈ ["lobby", "foyer"] ∧ HohWs.addRoom ["lobby", "foyer"] "lobby" =
      ["lobby", "foyer"]) ∧
    (HohWs.getClient [(1, ⟨some "u1", "Alice", ["lobby"]⟩)] 1 =
        some ⟨some "u1", "Alice", ["lobby"]⟩ ∧
      "lobby" ∈ (⟨some "u1", "Alice", ["lobby"]⟩ : HohWs.Meta).rooms ∧
      HohWs.updateMeta [(1, ⟨some "u1", "Alice", ["lobby"]⟩)] 1
        (fun m => { m with rooms := HohWs.addRoom m.rooms "lobby" }) =
      [(1, ⟨some "u1", "Alice", ["lobby"]⟩)]) ∧
    ((1 : Ws) ∈ ServerJs.membersOf [("lobby", [1])] "lobby" ∧
      ServerJs.getWsRoom [(1, "lobby")] 1 = some "lobby" ∧
      ServerJs.joinRoom ⟨[("lobby", [1])], [(1, "lobby")]⟩ 1 "lobby" =
        ⟨[("lobby", [1])], [(1, "lobby")]⟩) :=
  ⟨⟨by decide, C9_join_idempotent.1 ["lobby", "foyer"] "lobby" (by decide)⟩,
    ⟨by decide, by decide,
      C9_join_idempotent.2.1 [(1, ⟨some "u1", "Alice", ["lobby"]⟩)] 1
        ⟨some "u1", "Alice", ["lobby"]⟩ "lobby" (by decide) (by decide)⟩,
    ⟨by decide, by decide,
      C9_join_idempotent.2.2 ⟨[("lobby", [1])], [(1, "lobby")]⟩ 1 "lobby"
        (by decide) (by decide)⟩⟩

namespace HohWs

/-- Looking up a key after an in-place meta mutation finds the mutated
value. -/
theorem getClient_updateMeta_self (ws : Ws) (f : Meta → Meta) :
    ∀ (clients : Clients) (meta : Meta), getClient clients ws = some meta →
      getClient (updateMeta clients ws f) ws = some (f meta) := by
  intro clients
  induction clients with
  | nil => intro meta h; exact Option.noConfusion h
  | cons hd rest ih =>
    obtain ⟨w, m⟩ := hd
    intro meta h
    simp only [updateMeta]
    by_cases hw : w = ws
    · rw [if_pos hw]
      have hm : m = meta := by
        have h2 : (if w = ws then some m else getClient rest ws) = some meta := h
        rw [if_pos hw] at h2
        exact Option.some.inj h2
      show (if w = ws then some (f m) else getClient rest ws) = some (f meta)
      rw [if_pos hw, hm]
    · rw [if_neg hw]
      have h2 : getClient rest ws = some meta := by
        have h3 : (if w = ws then some m else getClient rest ws) = some meta := h
        rw [if_neg hw] at h3
        exact h3
      show (if w = ws then some m else getClient (updateMeta rest ws f) ws) =
        some (f meta)
      rw [if_neg hw]
      exact ih meta h2

end HohWs

/-- C10: the message:new handler ignores any room field carried by the
frame — the whole step result is independent of it — it unconditionally
adds the fixed room body_chat to the sender's joinedRooms, and on
persistence success it broadcasts the saved message exactly to the open
body_chat members other than the sender. -/
theorem C10_message_new_fixed_room (clients : HohWs.Clients) (openSet : List Ws)
    (ws : Ws) (userId : Option String) (uname : String) (now : Nat)
    (msg : HohWs.HohMsg) (body : HohWs.MsgBody) (meta : HohWs.Meta) (saved : String)
    (htype : msg.type = some "message:new") (hbody : msg.message = some body)
    (hmem : HohWs.getClient clients ws = some meta) :
    (∀ r' : Option String,
      HohWs.onMessage clients openSet ws userId uname now
          (some { msg with room := r' }) (.ok saved) =
        HohWs.onMessage clients openSet ws userId uname now (some msg) (.ok saved)) ∧
    HohWs.getClient
        (HohWs.onMessage clients openSet ws userId uname now (some msg)
          (.ok saved)).clients ws =
      some { meta with rooms := HohWs.addRoom meta.rooms "body_chat" } ∧
    "body_chat" ∈ HohWs.addRoom meta.rooms "body_chat" ∧
    (∀ w m, (w, m) ∈ (HohWs.onMessage clients openSet ws userId uname now
        (some msg) (.ok saved)).sends ↔
      ((∃ mw, (w, mw) ∈ (HohWs.onMessage clients openSet ws userId uname now
          (some msg) (.ok saved)).clients ∧ "body_chat" ∈ mw.rooms) ∧
        w ∈ openSet ∧ w ≠ ws ∧ m = HohWs.Out.msgNew saved)) := by
  have hS : HohWs.onMessage clients openSet ws userId uname now (some msg) (.ok saved) =
      ⟨HohWs.updateMeta clients ws
          (fun m => { m with rooms := HohWs.addRoom m.rooms "body_chat" }),
        HohWs.broadcastToRoom
          (HohWs.updateMeta clients ws
            (fun m => { m with rooms := HohWs.addRoom m.rooms "body_chat" }))
          openSet "body_chat" (HohWs.Out.msgNew saved) (some ws),
        [], false, false⟩ := by
    simp [HohWs.onMessage, htype, hbody]
  refine ⟨?_, ?_, ?_, ?_⟩
  · intro r'
    rw [hS]
    simp [HohWs.onMessage, htype, hbody]
  · rw [hS]
    exact HohWs.getClient_updateMeta_self ws _ clients meta hmem
  · unfold HohWs.addRoom
    by_cases h : "body_chat" ∈ meta.rooms
    · rw [if_pos h]; exact h
    · rw [if_neg h]; exact List.mem_append_right _ (List.mem_singleton.mpr rfl)
  · intro w m
    rw [hS]
    rw [HohWs.mem_broadcastToRoom]
    constructor
    · rintro ⟨hex, ho, hne, rfl⟩
      exact ⟨hex, ho, fun h => hne (by rw [h]), rfl⟩
    · rintro ⟨hex, ho, hne, rfl⟩
      exact ⟨hex, ho, fun h => hne (Option.some.inj h).symm, rfl⟩

/-- Witness for C10: socket 1 sends a message:new frame carrying room
foyer; the handler still targets body_chat, where open socket 2 is the
only recipient. -/
theorem C10_message_new_fixed_room_witness :
    ((⟨some "message:new", some "foyer", none, some "7",
        some ⟨some "hi", none, none⟩, none⟩ : HohWs.HohMsg).type = some "message:new") ∧
    ((⟨some "message:new", some "foyer", none, some "7",
        some ⟨some "hi", none, none⟩, none⟩ : HohWs.HohMsg).message =
      some ⟨some "hi", none, none⟩) ∧
    HohWs.getClient
      [(1, ⟨some "u1", "Alice", ["foyer"]⟩), (2, ⟨some "u2", "Bob", ["body_chat"]⟩)] 1 =
      some ⟨some "u1", "Alice", ["foyer"]⟩ ∧
    ((∀ r' : Option String,
        HohWs.onMessage
            [(1, ⟨some "u1", "Alice", ["foyer"]⟩), (2, ⟨some "u2", "Bob", ["body_chat"]⟩)]
            [1, 2] 1 (some "u1") "Alice" 6
            (some { (⟨some "message:new", some "foyer", none, some "7",
              some ⟨some "hi", none, none⟩, none⟩ : HohWs.HohMsg) with room := r' })
            (.ok "sv") =
          HohWs.onMessage
            [(1, ⟨some "u1", "Alice", ["foyer"]⟩), (2, ⟨some "u2", "Bob", ["body_chat"]⟩)]
            [1, 2] 1 (some "u1") "Alice" 6
            (some ⟨some "message:new", some "foyer", none, some "7",
              some ⟨some "hi", none, none⟩, none⟩) (.ok "sv")) ∧
      HohWs.getClient
          (HohWs.onMessage
            [(1, ⟨some "u1", "Alice", ["foyer"]⟩), (2, ⟨some "u2", "Bob", ["body_chat"]⟩)]
            [1, 2] 1 (some "u1") "Alice" 6
            (some ⟨some "message:new", some "foyer", none, some "7",
              some ⟨some "hi", none, none⟩, none⟩) (.ok "sv")).clients 1 =
        some { (⟨some "u1", "Alice", ["foyer"]⟩ : HohWs.Meta) with
          rooms := HohWs.addRoom ["foyer"] "body_chat" } ∧
      "body_chat" ∈ HohWs.addRoom ["foyer"] "body_chat" ∧
      (∀ w m, (w, m) ∈ (HohWs.onMessage
            [(1, ⟨some "u1", "Alice", ["foyer"]⟩), (2, ⟨some "u2", "Bob", ["body_chat"]⟩)]
            [1, 2] 1 (some "u1") "Alice" 6
            (some ⟨some "message:new", some "foyer", none, some "7",
              some ⟨some "hi", none, none⟩, none⟩) (.ok "sv")).sends ↔
        ((∃ mw, (w, mw) ∈ (HohWs.onMessage
              [(1, ⟨some "u1", "Alice", ["foyer"]⟩), (2, ⟨some "u2", "Bob", ["body_chat"]⟩)]
              [1, 2] 1 (some "u1") "Alice" 6
              (some ⟨some "message:new", some "foyer", none, some "7",
                some ⟨some "hi", none, none⟩, none⟩) (.ok "sv")).clients ∧
            "body_chat" ∈ mw.rooms) ∧
          w ∈ [1, 2] ∧ w ≠ 1 ∧ m = HohWs.Out.msgNew "sv"))) :=
  ⟨rfl, rfl, by decide,
    C10_message_new_fixed_room
      [(1, ⟨some "u1", "Alice", ["foyer"]⟩), (2, ⟨some "u2", "Bob", ["body_chat"]⟩)]
      [1, 2] 1 (some "u1") "Alice" 6
      ⟨some "message:new", some "foyer", none, some "7", some ⟨some "hi", none, none⟩, none⟩
      ⟨some "hi", none, none⟩ ⟨some "u1", "Alice", ["foyer"]⟩ "sv" rfl rfl (by decide)⟩
